import Mathlib

/-!
Verification development for the `mpd_protocol` crate (client-side MPD
protocol engine).  The Rust sources under `src/` are shallowly embedded:

* `src/command.rs`  — command validation, canonicalization and rendering;
* `src/response.rs` — the `Response`/`Frame`/`Error` data model, its
  construction from parser output, and the two frame iterators;
* `src/codec.rs`    — the `MpdCodec` decoder state machine.

Rust strings are embedded as `List Char` (with explicit UTF-8 byte
arithmetic where the source indexes by bytes), raw protocol bytes as
`List Nat`, and panics as `Option`/`none` outcomes.  The crate's
`parser` module is not part of the provided sources; it is modelled from
the specification (see the `Modelled from the spec:` doc comments).
-/

namespace Mpd

/-! ## Character classification helpers

The Rust source delegates to `char::is_whitespace` (Unicode
`White_Space`) and `char::is_alphabetic` (Unicode `Alphabetic`). -/

/-- Embedding of Rust `char::is_whitespace`: the complete Unicode
`White_Space` property (25 code points). -/
def rustIsWhitespace (c : Char) : Bool :=
  (0x9 ≤ c.toNat && c.toNat ≤ 0xD) || c.toNat = 0x20 || c.toNat = 0x85 ||
  c.toNat = 0xA0 || c.toNat = 0x1680 ||
  (0x2000 ≤ c.toNat && c.toNat ≤ 0x200A) ||
  c.toNat = 0x2028 || c.toNat = 0x2029 || c.toNat = 0x202F ||
  c.toNat = 0x205F || c.toNat = 0x3000

/-- Embedding of Rust `char::is_alphabetic` (Unicode `Alphabetic`)
restricted to the Basic Latin, Latin-1 Supplement and Latin
Extended-A/B blocks, which is the fragment exercised by this
development.  Within those blocks this agrees with Unicode: the ASCII
letters, and `U+00C0`–`U+024F` minus the two arithmetic signs `×`
(`U+00D7`) and `÷` (`U+00F7`). -/
def rustIsAlphabetic (c : Char) : Bool :=
  (0x41 ≤ c.toNat && c.toNat ≤ 0x5A) || (0x61 ≤ c.toNat && c.toNat ≤ 0x7A) ||
  ((0xC0 ≤ c.toNat && c.toNat ≤ 0x24F) && c.toNat ≠ 0xD7 && c.toNat ≠ 0xF7)

/-- `is_valid_command_char` from `src/command.rs`: commands can consist
of alphabetic chars and underscores. -/
def is_valid_command_char (c : Char) : Bool :=
  rustIsAlphabetic c || c = '_'

/-! ## Byte-index bookkeeping for Rust strings -/

/-- Helper for `charIndices`: pairs every character with its UTF-8 byte
offset, starting from offset `n`. -/
def charIndicesAux : Nat → List Char → List (Nat × Char)
  | _, [] => []
  | n, c :: cs => (n, c) :: charIndicesAux (n + c.utf8Size) cs

/-- Embedding of Rust `str::char_indices`: every character of the
string paired with its UTF-8 byte offset. -/
def charIndices (s : List Char) : List (Nat × Char) :=
  charIndicesAux 0 s

/-- Embedding of Rust `str::len`: the UTF-8 byte length. -/
def byteLen (s : List Char) : Nat :=
  (s.map Char.utf8Size).sum

/-- Embedding of Rust byte-slicing `s[..n]` of a `str`: splits the
string after exactly `n` UTF-8 bytes.  Returns `none` when `n` is not a
character boundary (Rust panics there) or lies past the end. -/
def splitAtByte : List Char → Nat → Option (List Char × List Char)
  | l, 0 => some ([], l)
  | [], _ + 1 => none
  | c :: cs, n + 1 =>
    if c.utf8Size ≤ n + 1 then
      (splitAtByte cs (n + 1 - c.utf8Size)).map (fun p => (c :: p.1, p.2))
    else none

/-- Embedding of Rust `u8::make_ascii_lowercase` on a single character:
only ASCII capitals are lowered. -/
def asciiToLower (c : Char) : Char :=
  if 0x41 ≤ c.toNat && c.toNat ≤ 0x5A then Char.ofNat (c.toNat + 0x20) else c

/-! ## `src/command.rs` -/

/-- `InvalidCommandReason` from `src/command.rs`. -/
inductive InvalidCommandReason where
  | Empty : InvalidCommandReason
  | InvalidCharacter : Nat → Char → InvalidCommandReason
  | UnncessaryWhitespace : InvalidCommandReason
  | NestedCommandList : InvalidCommandReason
deriving DecidableEq

/-- `CommandError` from `src/command.rs`. -/
structure CommandError where
  reason : InvalidCommandReason
  list_at : Option Nat
deriving DecidableEq

/-- The character test inside `validate_single_command`'s `find`: a
character fails validation when it is neither a valid command character
nor non-newline whitespace. -/
def badCommandChar (c : Char) : Bool :=
  !(is_valid_command_char c || (rustIsWhitespace c && c ≠ '\n'))

/-- `validate_single_command` from `src/command.rs`. -/
def validate_single_command (command : List Char) :
    Except CommandError (List Char) :=
  if command.isEmpty then
    .error ⟨.Empty, none⟩
  else if rustIsWhitespace (command.headD ' ') ||
      rustIsWhitespace (command.getLastD ' ') then
    .error ⟨.UnncessaryWhitespace, none⟩
  else
    match (charIndices command).find? (fun p => badCommandChar p.2) with
    | some (i, c) => .error ⟨.InvalidCharacter i c, none⟩
    | none => .ok command

/-- `canonicalize_command` from `src/command.rs`.  `command_end` is the
byte index of the first non-verb character, or `command.len() - 1` when
there is none; the prefix up to that byte index is ASCII-lowercased.
Returns `none` where Rust panics (slicing at a non-boundary). -/
def canonicalize_command (command : List Char) : Option (List Char) :=
  let command_end :=
    (((charIndices command).find? (fun p => !is_valid_command_char p.2)).map
      Prod.fst).getD (byteLen command - 1)
  (splitAtByte command command_end).map
    (fun p => p.1.map asciiToLower ++ p.2)

/-- `TryFrom<&str> for Command` from `src/command.rs`: validate, then
canonicalize, then wrap in a singleton command vector.  The outer
`Option` is `none` where Rust panics. -/
def Command.tryFrom (c : List Char) :
    Option (Except CommandError (List (List Char))) :=
  match validate_single_command c with
  | .error e => some (.error e)
  | .ok c2 => (canonicalize_command c2).map (fun c3 => Except.ok [c3])

/-- `COMMAND_LIST_BEGIN` from `src/command.rs`. -/
def COMMAND_LIST_BEGIN : List Char := "command_list_ok_begin\n".toList

/-- `COMMAND_LIST_END` from `src/command.rs`. -/
def COMMAND_LIST_END : List Char := "command_list_end\n".toList

/-- `Command::render` from `src/command.rs`: a single command renders
as its text plus a newline; longer command vectors are wrapped in the
command-list markers, each command newline-terminated.  `none` models
the `assert!(self.0.len() > 1)` panic on an empty vector. -/
def Command.render (cmd : List (List Char)) : Option (List Char) :=
  if cmd.length = 1 then
    some (cmd.headD [] ++ ['\n'])
  else if 1 < cmd.length then
    some (COMMAND_LIST_BEGIN ++
      cmd.foldl (fun acc c => acc ++ c ++ ['\n']) [] ++ COMMAND_LIST_END)
  else none

/-! ## `src/response.rs` — data model

Protocol text (keys, values, messages) is represented at the byte level
(`List Nat`), matching the byte buffers the codec operates on. -/

/-- `Frame` from `src/response.rs`: ordered key-value pairs plus an
optional binary payload. -/
structure Frame where
  values : List (List Nat × List Nat)
  binary : Option (List Nat)
deriving DecidableEq

/-- `Error` from `src/response.rs`. -/
structure Error where
  code : Nat
  command_index : Nat
  current_command : Option (List Nat)
  message : List Nat
deriving DecidableEq

/-- `Response` from `src/response.rs`.  The `frames` field stores the
frames in reverse-chronological order (oldest last), as arranged by
`Response::new` and the `TryFrom` construction. -/
structure Response where
  frames : List Frame
  error : Option Error
deriving DecidableEq

/-- `OwnedResponseError` from `src/response.rs`. -/
inductive OwnedResponseError where
  | FramesAfterError : OwnedResponseError
  | Empty : OwnedResponseError
deriving DecidableEq

/-- `Response::new` from `src/response.rs`: asserts that the response
is not entirely empty (`none` models the panic), then stores the given
chronological frame list reversed. -/
def Response.new (frames : List Frame) (error : Option Error) :
    Option Response :=
  if frames.isEmpty && error.isNone then none
  else some ⟨frames.reverse, error⟩

/-- `parser::Response` — the unit type produced by the tokenizer for
one segment of a response: either a successful frame's data or an error
line.  (Declared in the missing `parser` module; field layout follows
its uses in `src/response.rs` and the spec's wire grammar.) -/
inductive PResponse where
  | success (fields : List (List Nat × List Nat)) (binary : Option (List Nat))
  | error (code : Nat) (command_index : Nat)
      (current_command : Option (List Nat)) (message : List Nat)
deriving DecidableEq

/-- Whether a parser unit is an error unit. -/
def PResponse.isErr : PResponse → Bool
  | .error .. => true
  | _ => false

/-- The owned `Frame` built from a successful parser unit (the key
interning in the source only shares allocations and never changes the
values, so it is the identity here). -/
def PResponse.toFrame : PResponse → Frame
  | .success fields binary => ⟨fields, binary⟩
  | .error .. => ⟨[], none⟩

/-- The loop body of `TryFrom<&[parser::Response]> for Response`:
iterates over the raw units in reverse, pushing successful frames and
recording the error, and fails with `FramesAfterError` when an error
unit is found after frames were already collected. -/
def tryFromLoop : List PResponse → List Frame → Option Error →
    Except OwnedResponseError Response
  | [], frames, error => .ok ⟨frames, error⟩
  | .success fields binary :: rest, frames, error =>
    tryFromLoop rest (frames ++ [⟨fields, binary⟩]) error
  | .error c i cc m :: rest, frames, _ =>
    if frames.isEmpty then tryFromLoop rest frames (some ⟨c, i, cc, m⟩)
    else .error .FramesAfterError

/-- `TryFrom<&[parser::Response]> for Response` from
`src/response.rs`. -/
def responseTryFrom (raw : List PResponse) :
    Except OwnedResponseError Response :=
  if raw.isEmpty then .error .Empty
  else tryFromLoop raw.reverse [] none

/-! ## `src/response.rs` — iterators -/

/-- The item type yielded by both frame iterators
(`Result<Frame, Error>` in Rust). -/
inductive FrameItem where
  | frame (f : Frame)
  | err (e : Error)
deriving DecidableEq

/-- State of `FramesRef` from `src/response.rs` (the borrowed iterator
returned by `Response::frames`). -/
structure FramesRefIter where
  response : Response
  frames_cursor : Nat
  error_consumed : Bool

/-- `FramesRef::next` from `src/response.rs`: walk `frames` forward by
cursor, then yield the error once. -/
def framesRefNext (it : FramesRefIter) : Option FrameItem × FramesRefIter :=
  if h : it.frames_cursor < it.response.frames.length then
    (some (.frame (it.response.frames.get ⟨it.frames_cursor, h⟩)),
      { it with frames_cursor := it.frames_cursor + 1 })
  else if it.error_consumed = false then
    (it.response.error.map .err, { it with error_consumed := true })
  else
    (none, it)

/-- State of `Frames` from `src/response.rs` (the consuming iterator
returned by `Response::into_frames`): it owns the response. -/
structure FramesIter where
  response : Response

/-- `Frames::next` from `src/response.rs`: `Vec::pop` the last stored
frame, then `Option::take` the error. -/
def framesNext (it : FramesIter) : Option FrameItem × FramesIter :=
  match it.response.frames.getLast? with
  | some f =>
    (some (.frame f), ⟨⟨it.response.frames.dropLast, it.response.error⟩⟩)
  | none =>
    match it.response.error with
    | some e => (some (.err e), ⟨⟨[], none⟩⟩)
    | none => (none, it)

/-- Drains an iterator given by a `next` function into the list of
items it yields, with explicit fuel. -/
def drainIter {σ : Type} (next : σ → Option FrameItem × σ) :
    Nat → σ → List FrameItem
  | 0, _ => []
  | n + 1, s =>
    match next s with
    | (none, _) => []
    | (some x, s2) => x :: drainIter next n s2

/-- The full sequence yielded by `Response::frames` (the borrowed
iterator); the fuel suffices because the iterator yields at most
`frames.length + 1` items. -/
def Response.framesSeq (r : Response) : List FrameItem :=
  drainIter framesRefNext (r.frames.length + 2) ⟨r, 0, false⟩

/-- The full sequence yielded by `Response::into_frames` (the consuming
iterator). -/
def Response.intoFramesSeq (r : Response) : List FrameItem :=
  drainIter framesNext (r.frames.length + 2) ⟨r⟩

/-! ## The `parser` module, modelled from the spec

The crate's `parser` module (the line/field tokenizer) is not among the
provided sources; the definitions below are modelled from the
specification: the wire grammar table of §6 and the assembly algorithm
of §4.3. -/

/-- The bytes of an ASCII string literal. -/
def strBytes (s : String) : List Nat := s.toList.map Char.toNat

/-- ASCII decimal digit test on a byte. -/
def isDigitByte (b : Nat) : Bool := 48 ≤ b && b ≤ 57

/-- Value of a big-endian list of ASCII decimal digit bytes. -/
def decimalValue (ds : List Nat) : Nat :=
  ds.foldl (fun a b => a * 10 + (b - 48)) 0

/-- Consume one expected byte from the front of the input. -/
def expectByte (b : Nat) : List Nat → Option (List Nat)
  | x :: xs => if x = b then some xs else none
  | [] => none

/-- Consume an expected byte sequence from the front of the input. -/
def expectBytes : List Nat → List Nat → Option (List Nat)
  | [], rest => some rest
  | b :: bs, rest => (expectByte b rest).bind (expectBytes bs)

/-- Result of a tokenizer-style parse: the next value plus the
remaining bytes, or `incomplete` (more bytes needed), or `malformed`
(grammar violation) — the three outcomes of the spec's tokenizer
contract (§6). -/
inductive ParseResult (α : Type) where
  | ok (rem : List Nat) (val : α)
  | incomplete
  | malformed
deriving DecidableEq

/-- Modelled from the spec: `parser::greeting`, recognizing the
greeting line `OK MPD <version>\n` (§4.2, §6) and yielding the version
bytes and the remainder. -/
def parseGreeting (src : List Nat) : ParseResult (List Nat) :=
  let header := strBytes "OK MPD "
  if src.length < header.length then
    if src = header.take src.length then .incomplete else .malformed
  else if src.take header.length = header then
    match (src.drop header.length).findIdx? (fun b => b = 10) with
    | some k =>
      .ok (src.drop (header.length + k + 1))
        ((src.drop header.length).take k)
    | none => .incomplete
  else .malformed

/-- Modelled from the spec: parsing one `ACK` error line (without its
trailing newline) against the grammar
`ACK [<code>@<command_index>] \x7b<current_command>\x7d <message>`
(§6); an empty `<current_command>` is the protocol's omitted-command
case. -/
def parseAckLine (line : List Nat) : Option PResponse := do
  let r1 ← expectBytes (strBytes "ACK [") line
  let code := r1.takeWhile isDigitByte
  if code.isEmpty then none else
  let r2 ← expectByte 64 (r1.dropWhile isDigitByte)
  let idx := r2.takeWhile isDigitByte
  if idx.isEmpty then none else
  let r3 ← expectBytes (strBytes "] \x7b") (r2.dropWhile isDigitByte)
  let cmd := r3.takeWhile (fun b => b ≠ 125)
  let r4 ← expectByte 125 (r3.dropWhile (fun b => b ≠ 125))
  let message ← expectByte 32 r4
  some (.error (decimalValue code) (decimalValue idx)
    (if cmd.isEmpty then none else some cmd) message)

/-- Modelled from the spec: splitting a field line `key: value` at its
first `": "` separator (§6). -/
def splitColonSpace : List Nat → Option (List Nat × List Nat)
  | 58 :: 32 :: rest => some ([], rest)
  | b :: rest =>
    (splitColonSpace rest).map (fun p => (b :: p.1, p.2))
  | [] => none

/-- Modelled from the spec: the decimal byte count of a `binary` field,
`none` unless the value is one or more ASCII digits. -/
def parseDecimal (bs : List Nat) : Option Nat :=
  if bs.isEmpty || bs.any (fun b => !isDigitByte b) then none
  else some (decimalValue bs)

/-- Modelled from the spec: the main loop of `parser::response`.  It
accumulates the current frame's fields and binary payload and the list
of finished units, consuming one structural unit per step (§4.3): the
final terminator `OK\n` ends the response, the sub-terminator
`list_OK\n` ends the current frame, an `ACK` line ends the response
with an error unit, a `binary: <n>` field switches to consuming exactly
`n` opaque payload bytes plus one newline, and any other `key: value`
line is a regular field.  Each step consumes at least one byte, so fuel
`src.length + 1` never runs out. -/
def parseResponseAux : Nat → List Nat → List (List Nat × List Nat) →
    Option (List Nat) → List PResponse → ParseResult (List PResponse)
  | 0, _, _, _, _ => .incomplete
  | fuel + 1, src, fields, binary, acc =>
    if src.isEmpty then .incomplete
    else if src.take 3 = strBytes "OK\n" then
      .ok (src.drop 3) (acc ++ [.success fields binary])
    else if src.take 8 = strBytes "list_OK\n" then
      parseResponseAux fuel (src.drop 8) [] none
        (acc ++ [.success fields binary])
    else if src.take 4 = strBytes "ACK " then
      match src.findIdx? (fun b => b = 10) with
      | none => .incomplete
      | some k =>
        match parseAckLine (src.take k) with
        | none => .malformed
        | some u => .ok (src.drop (k + 1)) (acc ++ [u])
    else
      match src.findIdx? (fun b => b = 10) with
      | none => .incomplete
      | some k =>
        match splitColonSpace (src.take k) with
        | none => .malformed
        | some (key, value) =>
          if key = strBytes "binary" then
            match parseDecimal value with
            | none => .malformed
            | some n =>
              let rest := src.drop (k + 1)
              if rest.length < n + 1 then .incomplete
              else if (rest.drop n).take 1 = [10] then
                parseResponseAux fuel (rest.drop (n + 1)) fields
                  (some (rest.take n)) acc
              else .malformed
          else
            parseResponseAux fuel (src.drop (k + 1))
              (fields ++ [(key, value)]) binary acc

/-- Modelled from the spec: `parser::response`, parsing exactly one
complete response (a list of frame/error units) from the front of the
buffer and returning the remaining bytes. -/
def parseResponse (src : List Nat) : ParseResult (List PResponse) :=
  parseResponseAux (src.length + 1) src [] none []

/-! ## `src/codec.rs` — the `MpdCodec` decoder -/

/-- The mutable decoder state of `MpdCodec` from `src/codec.rs` (the
tracing span is pure logging and is omitted). -/
structure MpdCodec where
  cursor : Nat
  protocol_version : Option (List Nat)
deriving DecidableEq

/-- The observable outcome of one `MpdCodec::decode` call:
`Ok(Option<Response>)` or one of the two error variants of
`MpdCodecError` that `decode` can produce. -/
inductive DecodeOutcome where
  | ok (r : Option Response)
  | invalidGreeting (bytes : List Nat)
  | invalidResponse (bytes : List Nat)
deriving DecidableEq

/-- The relative indices (within `src[cursor..]`) of the 3-byte windows
equal to `"OK\n"` — the candidate terminators enumerated by the `for`
loop in `MpdCodec::decode`. -/
def okWindowIndices (src : List Nat) (cursor : Nat) : List Nat :=
  (List.range (src.length - cursor - 2)).filter
    (fun i => ((src.drop (cursor + i)).take 3) = strBytes "OK\n")

/-- The body of the terminator loop in `MpdCodec::decode`
(`src/codec.rs` lines 122–171), iterating over the candidate window
indices.  For each candidate the full buffer is given to
`parser::response`; on success the codec converts the units, advances
the buffer by `cursor + window + 3` (the position just after the
candidate window — not by what the parser consumed), resets the cursor
and returns the response.  `Incomplete` moves to the next candidate;
a parse error empties the buffer and reports `InvalidResponse`.  When
the candidates are exhausted the cursor is parked at
`len().saturating_sub(2)`.  The result triple is (outcome, new state,
new buffer); the outer `none` models the `.unwrap()` panic on the
`TryFrom` conversion. -/
def decodeLoop (ver : Option (List Nat)) (cursor : Nat) (src : List Nat) :
    List Nat → Option (DecodeOutcome × MpdCodec × List Nat)
  | [] => some (.ok none, ⟨src.length - 2, ver⟩, src)
  | t :: rest =>
    match parseResponse src with
    | .ok _rem units =>
      match responseTryFrom units with
      | .ok r => some (.ok (some r), ⟨0, ver⟩, src.drop (cursor + t + 3))
      | .error _ => none
    | .incomplete => decodeLoop ver cursor src rest
    | .malformed => some (.invalidResponse src, ⟨0, ver⟩, [])

/-- The steady-state part of `MpdCodec::decode`: run the terminator
loop over all `"OK\n"` windows at or after the cursor. -/
def decodeMain (ver : Option (List Nat)) (cursor : Nat) (src : List Nat) :
    Option (DecodeOutcome × MpdCodec × List Nat) :=
  decodeLoop ver cursor src (okWindowIndices src cursor)

/-- `MpdCodec::decode` from `src/codec.rs`: while no protocol version
is stored, first parse the greeting (storing the version and dropping
the greeting bytes on success, returning `Ok(None)` while incomplete,
and failing with `InvalidGreeting` on a malformed greeting); then scan
for response terminators. -/
def decode (st : MpdCodec) (src : List Nat) :
    Option (DecodeOutcome × MpdCodec × List Nat) :=
  match st.protocol_version with
  | none =>
    match parseGreeting src with
    | .ok rem version => decodeMain (some version) st.cursor rem
    | .incomplete => some (.ok none, st, src)
    | .malformed => some (.invalidGreeting src, ⟨0, none⟩, [])
  | some _ => decodeMain st.protocol_version st.cursor src

/-! ## Helper lemmas -/

theorem charIndicesAux_map_snd (s : List Char) :
    ∀ n, (charIndicesAux n s).map Prod.snd = s := by
  induction s with
  | nil => intro n; rfl
  | cons c cs ih => intro n; simp [charIndicesAux, ih]

theorem mem_charIndicesAux_le (s : List Char) :
    ∀ n q, q ∈ charIndicesAux n s → n ≤ q.1 := by
  induction s with
  | nil => intro n q hq; simp [charIndicesAux] at hq
  | cons c cs ih =>
    intro n q hq
    simp only [charIndicesAux, List.mem_cons] at hq
    rcases hq with hq | hq
    · subst hq; exact Nat.le_refl n
    · have := ih (n + c.utf8Size) q hq
      omega

theorem charIndicesAux_pairwise (s : List Char) :
    ∀ n, (charIndicesAux n s).Pairwise (fun p q => p.1 < q.1) := by
  induction s with
  | nil => intro n; exact List.Pairwise.nil
  | cons c cs ih =>
    intro n
    refine List.Pairwise.cons ?_ (ih (n + c.utf8Size))
    intro q hq
    have h1 := mem_charIndicesAux_le cs (n + c.utf8Size) q hq
    have h2 := c.utf8Size_pos
    omega

theorem find_first_of_pairwise {l : List (Nat × Char)} {p : Nat × Char → Bool}
    {a : Nat × Char} (hp : l.Pairwise (fun x y => x.1 < y.1))
    (h : l.find? p = some a) :
    ∀ q ∈ l, q.1 < a.1 → p q = false := by
  induction l with
  | nil => simp at h
  | cons x xs ih =>
    rcases List.pairwise_cons.mp hp with ⟨hx, hxs⟩
    by_cases hpx : p x
    · rw [List.find?_cons_of_pos _ hpx] at h
      have hax : a = x := by injection h with h0; exact h0.symm
      subst hax
      intro q hq hlt
      rcases List.mem_cons.mp hq with hq | hq
      · subst hq; omega
      · have := hx q hq; omega
    · rw [List.find?_cons_of_neg _ hpx] at h
      intro q hq hlt
      rcases List.mem_cons.mp hq with hq | hq
      · subst hq; exact Bool.eq_false_iff.mpr hpx
      · exact ih hxs h q hq hlt

theorem validate_empty_iff (c : List Char) :
    validate_single_command c = .error ⟨.Empty, none⟩ ↔ c = [] := by
  unfold validate_single_command
  rcases c with _ | ⟨a, as⟩
  · simp
  · simp only [List.isEmpty_cons, Bool.false_eq_true, if_false]
    split
    · simp
    · split <;> simp

theorem validate_uw_iff (c : List Char) :
    validate_single_command c = .error ⟨.UnncessaryWhitespace, none⟩ ↔
      (c ≠ [] ∧ (rustIsWhitespace (c.headD ' ') = true ∨
        rustIsWhitespace (c.getLastD ' ') = true)) := by
  unfold validate_single_command
  rcases c with _ | ⟨a, as⟩
  · simp
  · simp only [List.isEmpty_cons, Bool.false_eq_true, if_false]
    split
    case isTrue h =>
      simpa using Bool.or_eq_true_iff.mp h
    case isFalse h =>
      have h2 := Bool.or_eq_false_iff.mp (Bool.eq_false_iff.mpr h)
      split <;> simp_all

theorem validate_invalid_char_first (c : List Char) (i : Nat) (ch : Char)
    (h : validate_single_command c = .error ⟨.InvalidCharacter i ch, none⟩) :
    (i, ch) ∈ charIndices c ∧ badCommandChar ch = true ∧
      ∀ q ∈ charIndices c, q.1 < i → badCommandChar q.2 = false := by
  unfold validate_single_command at h
  split at h
  · simp at h
  · split at h
    · simp at h
    · split at h
      case _ i2 c2 heq =>
        simp only [Except.error.injEq, CommandError.mk.injEq,
          InvalidCommandReason.InvalidCharacter.injEq, and_true] at h
        obtain ⟨hi1, hi2⟩ := h
        subst hi1; subst hi2
        have hp := List.find?_some heq
        refine ⟨List.mem_of_find?_eq_some heq, hp, ?_⟩
        intro q hq hlt
        exact find_first_of_pairwise (charIndicesAux_pairwise c 0) heq q hq hlt
      case _ => simp at h

theorem validate_invalid_char_exists (c : List Char) (h1 : c ≠ [])
    (h2 : rustIsWhitespace (c.headD ' ') = false)
    (h3 : rustIsWhitespace (c.getLastD ' ') = false)
    (h4 : ∃ q ∈ charIndices c, badCommandChar q.2 = true) :
    ∃ i ch,
      validate_single_command c = .error ⟨.InvalidCharacter i ch, none⟩ := by
  have hfind : ((charIndices c).find? (fun p => badCommandChar p.2)).isSome := by
    rw [List.find?_isSome]
    rcases h4 with ⟨q, hq, hbad⟩
    exact ⟨q, hq, hbad⟩
  rcases Option.isSome_iff_exists.mp hfind with ⟨⟨i, ch⟩, heq⟩
  refine ⟨i, ch, ?_⟩
  unfold validate_single_command
  rw [if_neg (by simpa using h1), if_neg (by rw [h2, h3]; simp), heq]

theorem validate_rejects_newline (c : List Char) (h : '\n' ∈ c) :
    ∀ s, validate_single_command c ≠ .ok s := by
  intro s hok
  unfold validate_single_command at hok
  split at hok
  · simp at hok
  · split at hok
    · simp at hok
    · split at hok
      case _ => simp at hok
      case _ hnone =>
        have hmem : ∃ q ∈ charIndices c, q.2 = '\n' := by
          have : '\n' ∈ (charIndices c).map Prod.snd := by
            rw [charIndices, charIndicesAux_map_snd]; exact h
          rcases List.mem_map.mp this with ⟨q, hq, hq2⟩
          exact ⟨q, hq, hq2⟩
        rcases hmem with ⟨q, hq, hq2⟩
        have := List.find?_eq_none.mp hnone q hq
        rw [hq2] at this
        exact this (by decide)

/-! ## Claim theorems: `src/command.rs` -/

/-- C9: command validation fails with `Empty` exactly when the input is
empty; with `UnncessaryWhitespace` exactly when the first or last
character is whitespace; an `InvalidCharacter(index, char)` failure
identifies (by byte index) the first character that is neither a valid
command character (alphabetic/underscore) nor non-newline whitespace,
and such a failure is produced whenever such a character exists (and
the earlier checks pass); and a newline anywhere in the input is always
rejected. -/
theorem C9_validate_error_taxonomy (c : List Char) :
    (validate_single_command c = .error ⟨.Empty, none⟩ ↔ c = []) ∧
    (validate_single_command c = .error ⟨.UnncessaryWhitespace, none⟩ ↔
      (c ≠ [] ∧ (rustIsWhitespace (c.headD ' ') = true ∨
        rustIsWhitespace (c.getLastD ' ') = true))) ∧
    (∀ i ch,
      validate_single_command c = .error ⟨.InvalidCharacter i ch, none⟩ →
      (i, ch) ∈ charIndices c ∧ badCommandChar ch = true ∧
        ∀ q ∈ charIndices c, q.1 < i → badCommandChar q.2 = false) ∧
    (c ≠ [] → rustIsWhitespace (c.headD ' ') = false →
      rustIsWhitespace (c.getLastD ' ') = false →
      (∃ q ∈ charIndices c, badCommandChar q.2 = true) →
      ∃ i ch,
        validate_single_command c = .error ⟨.InvalidCharacter i ch, none⟩) ∧
    ('\n' ∈ c → ∀ s, validate_single_command c ≠ .ok s) :=
  ⟨validate_empty_iff c, validate_uw_iff c,
    validate_invalid_char_first c,
    validate_invalid_char_exists c,
    validate_rejects_newline c⟩

/-- Witness for C9 at concrete inputs: the empty command, a command
with leading whitespace, a command with an invalid character, and a
command containing a newline. -/
theorem C9_witness :
    validate_single_command [] = .error ⟨.Empty, none⟩ ∧
    validate_single_command [' ', 'a'] =
      .error ⟨.UnncessaryWhitespace, none⟩ ∧
    badCommandChar '!' = true ∧
    (∃ i ch, validate_single_command ['a', '!'] =
      .error ⟨.InvalidCharacter i ch, none⟩) ∧
    validate_single_command ['a', '\n', 'b'] ≠ .ok ['a', '\n', 'b'] :=
  ⟨(C9_validate_error_taxonomy []).1.mpr rfl,
    (C9_validate_error_taxonomy [' ', 'a']).2.1.mpr
      ⟨by decide, Or.inl (by decide)⟩,
    ((C9_validate_error_taxonomy ['a', '!']).2.2.1 1 '!' (by rfl)).2.1,
    (C9_validate_error_taxonomy ['a', '!']).2.2.2.1 (by decide) (by decide)
      (by decide) (by decide),
    (C9_validate_error_taxonomy ['a', '\n', 'b']).2.2.2.2 (by decide)
      ['a', '\n', 'b']⟩

theorem foldl_render_lines (l : List (List Char)) :
    ∀ acc, l.foldl (fun a c => a ++ c ++ ['\n']) acc =
      acc ++ (l.map (fun c => c ++ ['\n'])).flatten := by
  induction l with
  | nil => intro acc; simp
  | cons x xs ih =>
    intro acc
    rw [List.foldl_cons, ih]
    simp [List.append_assoc]

/-- C8: a command vector holding exactly one command line renders as
`<text>\n`, and one holding more than one line renders as the
`command_list_ok_begin\n` marker, then each command's newline-terminated
line in order, then the `command_list_end\n` marker. -/
theorem C8_render_wire_format :
    (∀ c : List Char, Command.render [c] = some (c ++ ['\n'])) ∧
    (∀ cmd : List (List Char), 1 < cmd.length →
      Command.render cmd = some (COMMAND_LIST_BEGIN ++
        (cmd.map (fun c => c ++ ['\n'])).flatten ++ COMMAND_LIST_END)) := by
  constructor
  · intro c
    simp [Command.render]
  · intro cmd h
    have h1 : ¬cmd.length = 1 := by omega
    rw [Command.render, if_neg h1, if_pos h, foldl_render_lines]
    simp

/-- Witness for C8: a concrete single command and a concrete
two-command list. -/
theorem C8_witness :
    Command.render ["status".toList] = some "status\n".toList ∧
    Command.render ["a".toList, "b".toList] =
      some "command_list_ok_begin\na\nb\ncommand_list_end\n".toList :=
  ⟨(C8_render_wire_format.1 "status".toList).trans (by decide),
    (C8_render_wire_format.2 ["a".toList, "b".toList] (by decide)).trans
      (by decide)⟩

/-- C7 (failing evaluation): for a command consisting entirely of verb
characters, construction does not lowercase the final character of the
verb: `"PLAY"` canonicalizes to `"plaY"`, not `"play"` (the
`command.len() - 1` fallback in `canonicalize_command` excludes the
last byte).  When a non-verb character is present the claim's behavior
does hold, as the third conjunct shows. -/
theorem C7_canonicalize_misses_final_char :
    Command.tryFrom "PLAY".toList = some (.ok ["plaY".toList]) ∧
    "plaY".toList ≠ "play".toList ∧
    Command.tryFrom "PLAY this Thing".toList =
      some (.ok ["play this Thing".toList]) :=
  ⟨rfl, by decide, rfl⟩

/-- C10 (failing evaluation): `Command::try_from` panics on `"aé"`, a
command of verb characters whose final character is a two-byte
alphabetic character — validation succeeds, but canonicalization slices
the string at byte `len - 1`, which falls inside the final character
(`none` models the panic). -/
theorem C10_tryFrom_panics_on_multibyte_final_char :
    validate_single_command "aé".toList = .ok "aé".toList ∧
    Command.tryFrom "aé".toList = none :=
  ⟨rfl, rfl⟩

/-! ## Claim theorems: `src/response.rs` -/

/-- Distinguishable frames used in the iterator-order evaluation. -/
def frameA : Frame := ⟨[(strBytes "a", strBytes "1")], none⟩

/-- Second distinguishable frame. -/
def frameB : Frame := ⟨[(strBytes "b", strBytes "2")], none⟩

/-- C4 (failing evaluation): for the response built from the
chronological frame list `[frameA, frameB]`, the borrowed iterator
(`Response::frames`, which walks the reverse-chronologically stored
vector forward) yields `frameB` before `frameA`, while the consuming
iterator (`Response::into_frames`, which pops from the back) yields
`frameA` before `frameB` — the two iterators disagree, and only the
consuming one is chronological. -/
theorem C4_iterator_orders_disagree :
    Response.new [frameA, frameB] none = some ⟨[frameB, frameA], none⟩ ∧
    Response.framesSeq ⟨[frameB, frameA], none⟩ =
      [.frame frameB, .frame frameA] ∧
    Response.intoFramesSeq ⟨[frameB, frameA], none⟩ =
      [.frame frameA, .frame frameB] ∧
    Response.framesSeq ⟨[frameB, frameA], none⟩ ≠
      Response.intoFramesSeq ⟨[frameB, frameA], none⟩ :=
  ⟨rfl, rfl, rfl, by decide⟩

theorem tryFromLoop_ok_not_empty :
    ∀ (l : List PResponse) (frames : List Frame) (err : Option Error)
      (r : Response),
    (frames ≠ [] ∨ err.isSome = true ∨ l ≠ []) →
    tryFromLoop l frames err = .ok r →
    (r.frames ≠ [] ∨ r.error.isSome = true) := by
  intro l
  induction l with
  | nil =>
    intro frames err r hne h
    injection h with h0
    subst h0
    rcases hne with hne | hne | hne
    · exact Or.inl hne
    · exact Or.inr hne
    · exact absurd rfl hne
  | cons u rest ih =>
    intro frames err r hne h
    match u with
    | .success fields binary =>
      rw [tryFromLoop] at h
      exact ih (frames ++ [⟨fields, binary⟩]) err r
        (Or.inl (by simp)) h
    | .error c i cc m =>
      rw [tryFromLoop] at h
      split at h
      · exact ih frames (some ⟨c, i, cc, m⟩) r (Or.inr (Or.inl rfl)) h
      · simp at h

theorem tryFromLoop_success_block :
    ∀ (pre rest : List PResponse) (frames : List Frame) (err : Option Error),
    (∀ u ∈ pre, u.isErr = false) →
    tryFromLoop (pre ++ rest) frames err =
      tryFromLoop rest (frames ++ pre.map PResponse.toFrame) err := by
  intro pre
  induction pre with
  | nil => intro rest frames err _; simp
  | cons u pre2 ih =>
    intro rest frames err hs
    match u with
    | .success fields binary =>
      rw [List.cons_append, tryFromLoop, ih rest _ err
        (fun x hx => hs x (List.mem_cons_of_mem _ hx))]
      simp [PResponse.toFrame, List.append_assoc]
    | .error c i cc m =>
      have := hs (.error c i cc m) (List.mem_cons_self _ _)
      simp [PResponse.isErr] at this

/-- C5: a `Response` constructed from parser units is never entirely
empty (at least one frame or an error); an empty unit list is rejected
with `Empty`; a unit list in which the (single) error unit is followed
by at least one further frame is rejected with `FramesAfterError`; and
`Response::new` rejects (panics on) an empty frame list with no
error. -/
theorem C5_response_construction_invariants :
    responseTryFrom [] = .error .Empty ∧
    Response.new [] none = none ∧
    (∀ raw r, responseTryFrom raw = .ok r →
      (r.frames ≠ [] ∨ r.error.isSome = true)) ∧
    (∀ (pre post : List PResponse) (u : PResponse), u.isErr = true →
      (∀ x ∈ post, x.isErr = false) → post ≠ [] →
      responseTryFrom (pre ++ u :: post) = .error .FramesAfterError) := by
  refine ⟨rfl, rfl, ?_, ?_⟩
  · intro raw r h
    rw [responseTryFrom] at h
    split at h
    · simp at h
    · refine tryFromLoop_ok_not_empty raw.reverse [] none r ?_ h
      refine Or.inr (Or.inr ?_)
      simp_all [List.isEmpty_iff]
  · intro pre post u hu hpost hne
    rw [responseTryFrom, if_neg (by simp)]
    have hrev : (pre ++ u :: post).reverse =
        post.reverse ++ u :: pre.reverse := by
      simp
    rw [hrev, tryFromLoop_success_block post.reverse (u :: pre.reverse) [] none
      (fun x hx => hpost x (List.mem_reverse.mp hx))]
    have hmap : (post.reverse.map PResponse.toFrame).isEmpty = false := by
      simp [List.isEmpty_iff, hne]
    match u with
    | .error c i cc m =>
      rw [List.nil_append, tryFromLoop, if_neg (by simp_all)]
    | .success fields binary =>
      simp [PResponse.isErr] at hu

/-- Witness for C5: a single successful unit yields a non-empty
response, and an error unit followed by a successful unit is
rejected. -/
theorem C5_witness :
    ((⟨[⟨[], none⟩], none⟩ : Response).frames ≠ [] ∨
      (⟨[⟨[], none⟩], none⟩ : Response).error.isSome = true) ∧
    responseTryFrom [.error 1 2 none [], .success [] none] =
      .error .FramesAfterError :=
  ⟨C5_response_construction_invariants.2.2.1 [.success [] none]
      ⟨[⟨[], none⟩], none⟩ rfl,
    C5_response_construction_invariants.2.2.2 [] [.success [] none]
      (.error 1 2 none []) rfl (by decide) (by decide)⟩

/-! ## Claim theorems: `src/codec.rs` -/

/-- The protocol version bytes used in the concrete decoder runs. -/
def protoVer : List Nat := strBytes "0.21.11"

/-- The binary-payload response body of `tests::binary_response`. -/
def binaryBody : List Nat := strBytes "binary: 16\nHELLO \nOK\n WORLD\nOK\n"

/-- The declared 16-byte payload inside `binaryBody`, containing an
embedded `"OK\n"` terminator sequence. -/
def binaryPayload : List Nat := strBytes "HELLO \nOK\n WORLD"

/-- C1: decoding the buffered body `binary: 16\n` + 16 raw payload
bytes + newline + `OK\n` returns exactly one `Frame` whose binary
payload is byte-for-byte the declared 16 bytes — even though the
payload contains the byte sequence `"OK\n"` — and the `binary` field
does not appear among the frame's key-value pairs. -/
theorem C1_binary_payload_exact :
    decode ⟨0, some protoVer⟩ binaryBody =
      some (.ok (some ⟨[⟨[], some binaryPayload⟩], none⟩),
        ⟨0, some protoVer⟩, strBytes " WORLD\nOK\n") ∧
    binaryPayload.length = 16 :=
  ⟨rfl, rfl⟩

/-- A complete single-command error response
(`ACK [5@0] \x7b\x7d oops\n`); it contains no `OK\n` byte window. -/
def ackResponse : List Nat := strBytes "ACK [5@0] \x7b\x7d oops\n"

/-- C2 (failing evaluation): the bytes of `ackResponse` form one
complete, valid response per the (spec-modelled) parser, yet `decode` —
whose terminator loop only fires on `"OK\n"` windows — returns no
response on the call that delivers the whole sequence, and remains
stuck on every later call: the error response is never surfaced, so
delivering the full sequence does not return the Response. -/
theorem C2_error_response_never_completes :
    parseResponse ackResponse =
      .ok [] [.error 5 0 none (strBytes "oops")] ∧
    decode ⟨0, some protoVer⟩ ackResponse =
      some (.ok none, ⟨16, some protoVer⟩, ackResponse) ∧
    decode ⟨16, some protoVer⟩ ackResponse =
      some (.ok none, ⟨16, some protoVer⟩, ackResponse) :=
  ⟨rfl, rfl, rfl⟩

/-- Two complete responses back to back; the first response's field
value `OK` puts an `"OK\n"` byte window before the first response's
real terminator. -/
def pipelinedBuffer : List Nat := strBytes "foo: OK\nOK\nhello: world\nOK\n"

/-- The bytes of the second of the two pipelined responses. -/
def secondResponseBytes : List Nat := strBytes "hello: world\nOK\n"

/-- C3 (failing evaluation): on a buffer holding two complete responses
back to back, the first `decode` call returns the first Response
(correctly) but advances the buffer only to the end of the first
`"OK\n"` window — inside the first response — leaving three extra bytes
before the second response's bytes; the second call then returns a
spurious empty response instead of the second Response. -/
theorem C3_pipelined_buffer_misadvanced :
    decode ⟨0, some protoVer⟩ pipelinedBuffer =
      some (.ok (some ⟨[⟨[(strBytes "foo", strBytes "OK")], none⟩], none⟩),
        ⟨0, some protoVer⟩, strBytes "OK\nhello: world\nOK\n") ∧
    strBytes "OK\nhello: world\nOK\n" ≠ secondResponseBytes ∧
    decode ⟨0, some protoVer⟩ (strBytes "OK\nhello: world\nOK\n") =
      some (.ok (some ⟨[⟨[], none⟩], none⟩), ⟨0, some protoVer⟩,
        secondResponseBytes) :=
  ⟨rfl, by decide, rfl⟩

theorem decodeLoop_preserves_version :
    ∀ (cands : List Nat) (ver : Option (List Nat)) (cursor : Nat)
      (src : List Nat) (out : DecodeOutcome × MpdCodec × List Nat),
    decodeLoop ver cursor src cands = some out →
    out.2.1.protocol_version = ver := by
  intro cands
  induction cands with
  | nil =>
    intro ver cursor src out h
    injection h with h0
    subst h0
    rfl
  | cons t rest ih =>
    intro ver cursor src out h
    rw [decodeLoop] at h
    split at h
    · split at h
      · injection h with h0; subst h0; rfl
      · simp at h
    · exact ih ver cursor src out h
    · injection h with h0; subst h0; rfl

/-- C6: with the greeting only partially buffered (no newline), decode
returns no response and leaves the state and buffer untouched, so the
protocol version stays `None`; once `OK MPD 0.21.11\n` is fully
present, decode consumes it and stores version `0.21.11`; and once a
version is stored, no later decode call ever changes it. -/
theorem C6_greeting_handshake :
    decode ⟨0, none⟩ (strBytes "OK MPD 0.21.11") =
      some (.ok none, ⟨0, none⟩, strBytes "OK MPD 0.21.11") ∧
    decode ⟨0, none⟩ (strBytes "OK MPD 0.21.11\n") =
      some (.ok none, ⟨0, some protoVer⟩, []) ∧
    (∀ (st : MpdCodec) (src : List Nat) (v : List Nat)
      (out : DecodeOutcome × MpdCodec × List Nat),
      st.protocol_version = some v → decode st src = some out →
      out.2.1.protocol_version = some v) := by
  refine ⟨rfl, rfl, ?_⟩
  intro st src v out hv h
  rw [decode, hv] at h
  exact decodeLoop_preserves_version _ _ _ _ _ h

/-- Witness for C6: a decode call on a codec that already holds version
`0.21.11` leaves that version in place. -/
theorem C6_witness :
    ((DecodeOutcome.ok (some ⟨[⟨[], none⟩], none⟩),
      (⟨0, some protoVer⟩ : MpdCodec),
      ([] : List Nat)).2.1.protocol_version = some protoVer) :=
  C6_greeting_handshake.2.2 ⟨0, some protoVer⟩ (strBytes "OK\n") protoVer
    (DecodeOutcome.ok (some ⟨[⟨[], none⟩], none⟩), ⟨0, some protoVer⟩, [])
    rfl rfl

end Mpd
